import Mathlib

/-!
Shallow embedding of the Present_IT backend (src/server.py) document-to-image
conversion pipeline and report endpoint, together with proofs of the frozen
specification claims.

Modelling conventions:
- The local filesystem is a duplicate-free list of existing paths
  (`List String`); writing a file inserts its path, `os.remove` erases it.
- The Supabase content store is the list of destination object paths uploaded
  so far, in upload order.
- External capabilities (the pdf renderer `convert_from_path`, the libreoffice
  subprocess, the store's per-upload success or failure) are behaviour
  parameters supplied to each function, so that every possible behaviour of
  the environment is quantified over.
- Python exceptions surface as `Except HTTPError`; an `HTTPException(code,
  detail)` becomes `HTTPError.mk code detail`.
- Python's `str(idx)` on a natural number is `Nat.repr`.
-/

/-- Embedding of `fastapi.HTTPException`: a status code plus a detail string.
Uncaught non-HTTP exceptions (e.g. `FileNotFoundError`) are modelled as a
500 with the exception name as detail, matching FastAPI's behaviour of
turning them into an internal server error response. -/
structure HTTPError where
  code : Nat
  detail : String
deriving DecidableEq, Repr

/-- Constant `UPLOAD_DIR = "uploads"` from server.py. -/
def UPLOAD_DIR : String := "uploads"

/-- Accepted media types, the `valid_types` list of `upload_file`. -/
def valid_types : List String :=
  ["application/pdf",
   "application/vnd.openxmlformats-officedocument.presentationml.presentation"]

/-- Model of `os.path.basename` (and of `pathlib.Path(...).name` for the POSIX
paths this server uses): the longest suffix containing no slash. -/
def basename (p : String) : String :=
  ⟨(p.data.reverse.takeWhile (fun c => c != '/')).reverse⟩

/-- Fuel-driven core of Python's `str.replace`: scans left to right, and at
each position replaces the first (non-overlapping) occurrence of the pattern.
The fuel is always instantiated with the length of the scanned list, which
suffices because each step consumes at least one character. The empty-pattern
case never arises in the program (the pattern is always ".pptx"). -/
def pyReplaceF (pat rep : List Char) : Nat → List Char → List Char
  | 0, _ => []
  | _, [] => []
  | fuel + 1, c :: rest =>
    if !pat.isEmpty && pat.isPrefixOf (c :: rest) then
      rep ++ pyReplaceF pat rep fuel (List.drop pat.length (c :: rest))
    else
      c :: pyReplaceF pat rep fuel rest

/-- Model of Python's `s.replace(pat, rep)` for a non-empty pattern. -/
def pyStrReplace (s pat rep : String) : String :=
  ⟨pyReplaceF pat.data rep.data s.data.length s.data⟩

/-- Model of the stem part of `os.path.splitext`: everything up to (and
excluding) the last dot. Used only to describe the output path libreoffice
actually produces (input base name with the extension replaced). -/
def stemOf (p : String) : String :=
  match p.data.reverse.dropWhile (fun c => c != '.') with
  | [] => p
  | _ :: t => ⟨t.reverse⟩

/-- Definition taken from the spec's words, for comparison with the source's
path derivation: "transcode the slide deck into a portable-document file in
the same working directory, replacing the file extension". -/
def spec_extension_replaced (p : String) : String := stemOf p ++ ".pdf"

/-- Filesystem write (`open(path, "wb")` / `image.save(path)`): the path
exists afterwards; existence is idempotent, so a duplicate is not added. -/
def fsWrite (fs : List String) (p : String) : List String :=
  if p ∈ fs then fs else fs ++ [p]

/-- The staged temporary path built by `save_temp_file`:
`os.path.join(UPLOAD_DIR, f"{uuid4()}_{safe_name}")` with
`safe_name = Path(uploaded_file.filename).name`. -/
def staged_path (u filename : String) : String :=
  UPLOAD_DIR ++ "/" ++ u ++ "_" ++ basename filename

/-- Embedding of `save_temp_file`: stages the inbound bytes at the staged
path, returning the path and the filesystem afterwards. -/
def save_temp_file (u filename : String) (fs : List String) :
    String × List String :=
  (staged_path u filename, fsWrite fs (staged_path u filename))

/-- Embedding of `convert_pdf_to_images`. The external renderer
`convert_from_path` is a behaviour parameter: on a given path it either
raises (with some message) or decodes the document into `n` in-memory page
images. On success the function writes one file `f"{pdf_path}_{idx}.png"`
per page, in page order, and returns the list of written paths; on renderer
failure it raises `HTTPException(500, f"PDF conversion failed: {e}")`. -/
def convert_pdf_to_images (render : String → Except String Nat)
    (pdf_path : String) (fs : List String) :
    Except HTTPError (List String) × List String :=
  match render pdf_path with
  | Except.error e =>
      (Except.error ⟨500, "PDF conversion failed: " ++ e⟩, fs)
  | Except.ok n =>
      (Except.ok
        ((List.range n).map (fun idx => pdf_path ++ "_" ++ Nat.repr idx ++ ".png")),
       ((List.range n).map
          (fun idx => pdf_path ++ "_" ++ Nat.repr idx ++ ".png")).foldl fsWrite fs)

/-- Behaviour of one `subprocess.run` invocation of libreoffice: its exit
code and whatever it printed to stderr. The program runs the process with
`check=True` and without `capture_output`, so stderr is inherited by the
server process and `CalledProcessError.stderr` is `None`. -/
structure ProcResult where
  exitCode : Nat
  stderr : String
deriving DecidableEq, Repr

/-- Command line passed to `subprocess.run` in `convert_pptx_to_images`. -/
def libreoffice_cmd (pptx_path : String) : List String :=
  ["libreoffice", "--headless", "--convert-to", "pdf", pptx_path,
   "--outdir", UPLOAD_DIR]

/-- Model of `str(subprocess.CalledProcessError)` for a run with
`check=True` and no output capture: the message names the command and the
exit status and nothing else (in particular `e.stderr` is `None` and no
stderr text appears in it). Quoting of the command is elided. -/
def calledProcessErrorMsg (cmd : List String) (code : Nat) : String :=
  "Command " ++ String.intercalate " " cmd ++
    " returned non-zero exit status " ++ Nat.repr code ++ "."

/-- The pdf path `convert_pptx_to_images` derives:
`pptx_path.replace(".pptx", ".pdf")`, i.e. Python's replace-every-occurrence
substring substitution. -/
def pptx_pdf_path (p : String) : String := pyStrReplace p ".pptx" ".pdf"

/-- The output path the libreoffice process actually produces on success:
the input's base name with its extension replaced by `.pdf`, inside
`--outdir` (which is `UPLOAD_DIR`). -/
def libreoffice_output (p : String) : String :=
  UPLOAD_DIR ++ "/" ++ stemOf (basename p) ++ ".pdf"

/-- Embedding of `convert_pptx_to_images`. On non-zero exit of the
libreoffice process, `subprocess.run(check=True)` raises
`CalledProcessError`, which the function wraps as
`HTTPException(500, f"PPTX conversion failed: {e}")`. On zero exit the
process has written its output pdf and the function delegates to
`convert_pdf_to_images` on the derived path `pptx_path.replace(...)`;
an `HTTPException` raised there is caught by the same `except` and
re-wrapped (Python formats the inner exception as `"code: detail"`). -/
def convert_pptx_to_images (render : String → Except String Nat)
    (proc : ProcResult) (pptx_path : String) (fs : List String) :
    Except HTTPError (List String) × List String :=
  if proc.exitCode = 0 then
    match convert_pdf_to_images render (pptx_pdf_path pptx_path)
        (fsWrite fs (libreoffice_output pptx_path)) with
    | (Except.error e, fs2) =>
        (Except.error
          ⟨500, "PPTX conversion failed: " ++ Nat.repr e.code ++ ": " ++ e.detail⟩,
         fs2)
    | r => r
  else
    (Except.error
      ⟨500, "PPTX conversion failed: " ++
        calledProcessErrorMsg (libreoffice_cmd pptx_path) proc.exitCode⟩,
     fs)

/-- The destination folder `f"images/{folder_id}/"`. -/
def folder_path (folder_id : String) : String := "images/" ++ folder_id ++ "/"

/-- The destination object path `f"{folder_path}{img_name}"`. -/
def dest_path (folder_id img_name : String) : String :=
  folder_path folder_id ++ img_name

/-- The public URL
`f"{SUPABASE_URL}/storage/v1/object/public/presentations/{dest_path}"`. -/
def public_url (base folder_id img_name : String) : String :=
  base ++ "/storage/v1/object/public/presentations/" ++
    dest_path folder_id img_name

/-- State touched by the upload phase: the local filesystem and the content
store (destination paths of successfully stored objects, in order). -/
structure UploadState where
  fs : List String
  store : List String
deriving DecidableEq, Repr

/-- Loop body of `upload_images_to_supabase`, one iteration per local image
path. `ok k` tells whether the store accepts the k-th upload attempt, and
`errMsg k` is the message of the exception it raises otherwise. Each
iteration opens the file (a missing file raises an uncaught
`FileNotFoundError`), uploads it (a store failure raises
`HTTPException(500, f"Image upload failed: {e}")`, aborting the loop with
the file still on disk), records the deterministic public URL, and only
then removes the local file. -/
def upload_go (ok : Nat → Bool) (errMsg : Nat → String)
    (base folder_id : String) :
    Nat → List String → List String → UploadState →
    Except HTTPError (List String) × UploadState
  | _, [], acc, st => (Except.ok acc, st)
  | k, p :: rest, acc, st =>
    if p ∈ st.fs then
      if ok k then
        upload_go ok errMsg base folder_id (k + 1) rest
          (acc ++ [public_url base folder_id (basename p)])
          ⟨st.fs.erase p, st.store ++ [dest_path folder_id (basename p)]⟩
      else
        (Except.error ⟨500, "Image upload failed: " ++ errMsg k⟩, st)
    else
      (Except.error ⟨500, "FileNotFoundError"⟩, st)

/-- Embedding of `upload_images_to_supabase`. -/
def upload_images_to_supabase (ok : Nat → Bool) (errMsg : Nat → String)
    (base : String) (image_paths : List String) (folder_id : String)
    (st : UploadState) : Except HTTPError (List String) × UploadState :=
  upload_go ok errMsg base folder_id 0 image_paths [] st

/-- All behaviour parameters of one `upload_file` request: the pdf renderer,
the libreoffice process outcome, the store's per-attempt upload outcome and
error messages, the configured `SUPABASE_URL`, and the two `uuid4()` draws
(temp-file name component and `folder_id`). -/
structure Behaviour where
  render : String → Except String Nat
  proc : ProcResult
  ok : Nat → Bool
  errMsg : Nat → String
  base : String
  uuid_file : String
  uuid_folder : String

/-- An inbound multipart file: its client-declared filename and media type. -/
structure ReqFile where
  filename : String
  content_type : String
deriving DecidableEq, Repr

/-- Embedding of the `upload_file` endpoint. Validates the declared media
type (rejecting with a 400 before any disk I/O), stages the file, draws a
fresh `folder_id`, converts (pdf directly, pptx via libreoffice), deletes
the staged file in a `finally` (`os.remove` guarded by `os.path.exists`,
a no-op when the path is absent), then uploads the raster pages. -/
def upload_file (B : Behaviour) (f : ReqFile) (st : UploadState) :
    Except HTTPError (List String) × UploadState :=
  if f.content_type ∈ valid_types then
    match (if f.content_type = "application/pdf" then
        convert_pdf_to_images B.render
          (save_temp_file B.uuid_file f.filename st.fs).1
          (save_temp_file B.uuid_file f.filename st.fs).2
      else
        convert_pptx_to_images B.render B.proc
          (save_temp_file B.uuid_file f.filename st.fs).1
          (save_temp_file B.uuid_file f.filename st.fs).2) with
    | (Except.error e, fs2) =>
        (Except.error e,
         ⟨fs2.erase (save_temp_file B.uuid_file f.filename st.fs).1, st.store⟩)
    | (Except.ok image_paths, fs2) =>
        upload_images_to_supabase B.ok B.errMsg B.base image_paths
          B.uuid_folder
          ⟨fs2.erase (save_temp_file B.uuid_file f.filename st.fs).1, st.store⟩
  else
    (Except.error ⟨400, "Unsupported file type"⟩, st)

/-- Events of one `generate_report` request, in the order the endpoint
attempts them, used to state in which order the side effects happen. -/
inductive REvent where
  | deactivate (sid : Nat)
  | rpcFetch (sid : Nat)
  | uploadCSV (path : String)
  | getURL (path : String)
  | setReportURL (sid : Nat)
  | deleteRows (table : String) (sid : Nat)
deriving DecidableEq, Repr

/-- The session row touched by `generate_report`. -/
structure SessionRow where
  active : Bool
  report_url : Option String
deriving DecidableEq, Repr

/-- Behaviour of the external collaborators of one `generate_report`
request: whether each Supabase call raises (`some msg`) or succeeds
(`none`), how many rows the report RPC returns, and the public URL the
storage client reports for the uploaded CSV. -/
structure ReportBehaviour where
  updateActiveExc : Option String
  rpcExc : Option String
  rpcRows : Nat
  uploadExc : Option String
  urlExc : Option String
  urlValue : String
  updateUrlExc : Option String

/-- Result payload of a successful `generate_report`. -/
structure ReportOut where
  url : String
  rows : Nat
deriving DecidableEq, Repr

/-- Embedding of the `generate_report` endpoint. Returns the response (or
raised error), the session row afterwards (`none` when the session does not
exist), and the trace of attempted effects in order. The first statement of
the endpoint sets `active = False` on the session row; a failed RPC, an
empty report, a failed CSV upload, a failed URL retrieval or a failed final
update all abort the request afterwards, leaving that first update in
place. The trailing table deletions only log warnings on failure, so they
do not affect the outcome. -/
def generate_report (B : ReportBehaviour) (sid : Nat)
    (db : Option SessionRow) :
    Except HTTPError ReportOut × Option SessionRow × List REvent :=
  match B.updateActiveExc with
  | some e =>
      (Except.error ⟨500, "Failed to update session: " ++ e⟩, db,
       [REvent.deactivate sid])
  | none =>
    match db with
    | none =>
        (Except.error
          ⟨500, "Failed to update session: 404: Session update failed"⟩,
         none, [REvent.deactivate sid])
    | some row =>
      let row1 : SessionRow := { row with active := false }
      match B.rpcExc with
      | some e =>
          (Except.error ⟨500, "Supabase RPC error: " ++ e⟩, some row1,
           [REvent.deactivate sid, REvent.rpcFetch sid])
      | none =>
        match B.rpcRows with
        | 0 =>
            (Except.error ⟨404, "No data found for this session"⟩, some row1,
             [REvent.deactivate sid, REvent.rpcFetch sid])
        | Nat.succ m =>
          let fpath := "reports/report_session_" ++ Nat.repr sid ++ ".csv"
          match B.uploadExc with
          | some e =>
              (Except.error ⟨500, "Upload failed: " ++ e⟩, some row1,
               [REvent.deactivate sid, REvent.rpcFetch sid,
                REvent.uploadCSV fpath])
          | none =>
            match B.urlExc with
            | some e =>
                (Except.error ⟨500, "Failed to get public URL: " ++ e⟩,
                 some row1,
                 [REvent.deactivate sid, REvent.rpcFetch sid,
                  REvent.uploadCSV fpath, REvent.getURL fpath])
            | none =>
              match B.updateUrlExc with
              | some e =>
                  (Except.error ⟨500, "Failed to update session: " ++ e⟩,
                   some row1,
                   [REvent.deactivate sid, REvent.rpcFetch sid,
                    REvent.uploadCSV fpath, REvent.getURL fpath,
                    REvent.setReportURL sid])
              | none =>
                  (Except.ok ⟨B.urlValue, Nat.succ m⟩,
                   some { row1 with report_url := some B.urlValue },
                   [REvent.deactivate sid, REvent.rpcFetch sid,
                    REvent.uploadCSV fpath, REvent.getURL fpath,
                    REvent.setReportURL sid,
                    REvent.deleteRows "poll-response" sid,
                    REvent.deleteRows "attendance" sid,
                    REvent.deleteRows "leaderboard" sid])

/-- Fuel-driven big-endian decimal digit list of a natural number; with fuel
above `n` it coincides with what `Nat.toDigitsCore 10` prepends, and it is
structurally recursive, which makes reasoning about `Nat.repr` tractable. -/
def decCharsF : Nat → Nat → List Char
  | 0, _ => []
  | fuel + 1, n =>
    if n < 10 then [Nat.digitChar n]
    else decCharsF fuel (n / 10) ++ [Nat.digitChar (n % 10)]

/-- Decimal digit characters of `n`, equal to `(Nat.repr n).data`. -/
def decChars (n : Nat) : List Char := decCharsF (n + 1) n

/-- Numeric value of a decimal digit character. -/
def digitVal (c : Char) : Nat := c.toNat - 48

/-- Value of a big-endian digit string accumulated onto `a`. -/
def valAux (a : Nat) (l : List Char) : Nat :=
  l.foldl (fun b c => 10 * b + digitVal c) a

/-- A libreoffice run that exits with status 1 after printing `boom` to
stderr. -/
def proc_boom : ProcResult := ⟨1, "boom"⟩

/-- Behaviour in which every external step succeeds: the renderer decodes
two pages and every store upload is accepted. -/
def B_pdf_ok : Behaviour where
  render := fun _ => Except.ok 2
  proc := ⟨0, ""⟩
  ok := fun _ => true
  errMsg := fun _ => ""
  base := "https://sb.example"
  uuid_file := "u1"
  uuid_folder := "g1"

/-- Behaviour whose renderer always raises (a corrupt document). -/
def B_bad_pdf : Behaviour :=
  { B_pdf_ok with render := fun _ => Except.error "corrupt file" }

/-- A pdf upload request. -/
def f_pdf : ReqFile := ⟨"deck.pdf", "application/pdf"⟩

/-- A plain-text upload request (outside the accepted set). -/
def f_txt : ReqFile := ⟨"notes.txt", "text/plain"⟩

/-- Empty filesystem and store. -/
def st_empty : UploadState := ⟨[], []⟩

/-- Two raster pages already on disk, nothing in the store. -/
def two_pages : List String :=
  ["uploads/u1_deck.pdf_0.png", "uploads/u1_deck.pdf_1.png"]

/-- State holding exactly the two raster pages. -/
def st_two : UploadState := ⟨two_pages, []⟩

/-- Store behaviour accepting only the first upload attempt. -/
def ok_first : Nat → Bool := fun k => k == 0

/-- Report behaviour in which every Supabase call succeeds and the RPC
returns three rows. -/
def RB_ok : ReportBehaviour :=
  ⟨none, none, 3, none, none,
   "https://sb.example/reports/report_session_7.csv", none⟩

/-- An active session row without a report URL. -/
def row_active : SessionRow := ⟨true, none⟩

/-! ## String and filename lemmas -/

theorem string_data_inj {a b : String} (h : a.data = b.data) : a = b := by
  cases a
  cases b
  exact congrArg String.mk h

theorem str_reassoc (p a b c : String) : p ++ a ++ b ++ c = p ++ (a ++ b ++ c) := by
  simp [String.append_assoc]

theorem basename_append (p s : String) (h : ('/' : Char) ∉ s.data) :
    basename (p ++ s) = basename p ++ s := by
  apply string_data_inj
  show ((p ++ s).data.reverse.takeWhile (fun c => c != '/')).reverse
      = (basename p).data ++ s.data
  have hall : ∀ a ∈ s.data.reverse, (a != '/') = true := by
    intro a ha
    simp only [List.mem_reverse] at ha
    simp only [bne_iff_ne, ne_eq]
    intro hc
    subst hc
    exact h ha
  rw [String.data_append, List.reverse_append,
      List.takeWhile_append_of_pos hall, List.reverse_append,
      List.reverse_reverse]
  rfl

/-! ## Decimal representation lemmas for `Nat.repr` -/

theorem digitChar_ne_slash (k : Nat) : Nat.digitChar k ≠ '/' := by
  by_cases h : k < 16
  · interval_cases k <;> decide
  · unfold Nat.digitChar
    repeat rw [if_neg (by omega)]
    decide

theorem toDigitsCore_eq_decCharsF :
    ∀ (fuel n : Nat) (ds : List Char), n < fuel →
      Nat.toDigitsCore 10 fuel n ds = decCharsF fuel n ++ ds := by
  intro fuel
  induction fuel with
  | zero =>
    intro n ds h
    omega
  | succ fuel ih =>
    intro n ds h
    by_cases h10 : n < 10
    · have hdiv : n / 10 = 0 := Nat.div_eq_of_lt h10
      have hmod : n % 10 = n := Nat.mod_eq_of_lt h10
      simp [Nat.toDigitsCore, decCharsF, hdiv, hmod, h10]
    · have hge : 10 ≤ n := Nat.le_of_not_lt h10
      have hdiv : n / 10 ≠ 0 := by
        intro h0
        have hm : n % 10 < 10 := Nat.mod_lt _ (by norm_num)
        have hdm := Nat.div_add_mod n 10
        omega
      have hlt : n / 10 < fuel := by
        have h1 : n / 10 < n := Nat.div_lt_self (by omega) (by norm_num)
        omega
      simp only [Nat.toDigitsCore, decCharsF, h10, if_false, hdiv, ite_false]
      rw [ih (n / 10) (Nat.digitChar (n % 10) :: ds) hlt]
      simp

theorem repr_data (n : Nat) : (Nat.repr n).data = decChars n := by
  show Nat.toDigitsCore 10 (n + 1) n [] = decChars n
  rw [toDigitsCore_eq_decCharsF (n + 1) n [] (Nat.lt_succ_self n), List.append_nil]
  rfl

theorem decCharsF_ne_slash :
    ∀ (fuel n : Nat), ∀ c ∈ decCharsF fuel n, c ≠ '/' := by
  intro fuel
  induction fuel with
  | zero =>
    intro n c hc
    simp [decCharsF] at hc
  | succ fuel ih =>
    intro n c hc
    by_cases h10 : n < 10
    · simp [decCharsF, h10] at hc
      subst hc
      exact digitChar_ne_slash n
    · simp [decCharsF, h10, List.mem_append] at hc
      rcases hc with hc | hc
      · exact ih _ _ hc
      · subst hc
        exact digitChar_ne_slash _

theorem repr_ne_slash (n : Nat) : ('/' : Char) ∉ (Nat.repr n).data := by
  rw [repr_data]
  intro h
  exact decCharsF_ne_slash _ _ _ h rfl

theorem digitVal_digitChar {k : Nat} (h : k < 10) :
    digitVal (Nat.digitChar k) = k := by
  interval_cases k <;> decide

theorem valAux_append_singleton (a : Nat) (l : List Char) (c : Char) :
    valAux a (l ++ [c]) = 10 * valAux a l + digitVal c := by
  simp [valAux, List.foldl_append]

theorem valAux_decCharsF :
    ∀ (fuel n a : Nat), n < fuel →
      valAux a (decCharsF fuel n) = a * 10 ^ (decCharsF fuel n).length + n := by
  intro fuel
  induction fuel with
  | zero =>
    intro n a h
    omega
  | succ fuel ih =>
    intro n a h
    by_cases h10 : n < 10
    · simp [decCharsF, h10, valAux, digitVal_digitChar h10]
      ring
    · have hlt : n / 10 < fuel := by
        have h1 : n / 10 < n := Nat.div_lt_self (by omega) (by norm_num)
        omega
      simp only [decCharsF, h10, if_false, ite_false]
      rw [valAux_append_singleton, ih (n / 10) a hlt,
          digitVal_digitChar (Nat.mod_lt n (by norm_num)),
          List.length_append, List.length_singleton]
      calc 10 * (a * 10 ^ (decCharsF fuel (n / 10)).length + n / 10) + n % 10
          = a * (10 ^ (decCharsF fuel (n / 10)).length * 10) +
              (10 * (n / 10) + n % 10) := by ring
        _ = a * 10 ^ ((decCharsF fuel (n / 10)).length + 1) + n := by
              rw [pow_succ, Nat.div_add_mod]

theorem valAux_decChars (n : Nat) : valAux 0 (decChars n) = n := by
  have h := valAux_decCharsF (n + 1) n 0 (Nat.lt_succ_self n)
  simpa [decChars] using h

theorem repr_injective {m n : Nat} (h : Nat.repr m = Nat.repr n) : m = n := by
  have hd : decChars m = decChars n := by
    rw [← repr_data, ← repr_data, h]
  calc m = valAux 0 (decChars m) := (valAux_decChars m).symm
    _ = valAux 0 (decChars n) := by rw [hd]
    _ = n := valAux_decChars n

/-! ## Filesystem-list lemmas -/

theorem mem_fsWrite_self (fs : List String) (p : String) : p ∈ fsWrite fs p := by
  unfold fsWrite
  split
  · assumption
  · simp

theorem mem_fsWrite_of_mem {fs : List String} {q : String} (p : String)
    (h : q ∈ fs) : q ∈ fsWrite fs p := by
  unfold fsWrite
  split
  · exact h
  · simp [h]

theorem fsWrite_nodup {fs : List String} (p : String) (h : fs.Nodup) :
    (fsWrite fs p).Nodup := by
  unfold fsWrite
  split
  · exact h
  · next hp =>
    rw [List.nodup_append]
    refine ⟨h, List.nodup_singleton p, ?_⟩
    intro a ha hb
    simp only [List.mem_singleton] at hb
    subst hb
    exact hp ha

theorem foldl_fsWrite_nodup :
    ∀ (l fs : List String), fs.Nodup → (l.foldl fsWrite fs).Nodup := by
  intro l
  induction l with
  | nil => intro fs h; exact h
  | cons p rest ih =>
    intro fs h
    exact ih _ (fsWrite_nodup p h)

theorem mem_foldl_fsWrite_of_mem :
    ∀ (l fs : List String) {q}, q ∈ fs → q ∈ l.foldl fsWrite fs := by
  intro l
  induction l with
  | nil => intro fs q h; exact h
  | cons p rest ih =>
    intro fs q h
    exact ih _ (mem_fsWrite_of_mem p h)

theorem mem_foldl_fsWrite_self :
    ∀ (l fs : List String) {q}, q ∈ l → q ∈ l.foldl fsWrite fs := by
  intro l
  induction l with
  | nil =>
    intro fs q h
    simp at h
  | cons p rest ih =>
    intro fs q h
    rcases List.mem_cons.1 h with h | h
    · subst h
      exact mem_foldl_fsWrite_of_mem rest _ (mem_fsWrite_self fs q)
    · exact ih _ h

theorem mem_foldl_erase_iff :
    ∀ (l fs : List String), fs.Nodup →
      ∀ p, p ∈ l.foldl (fun acc q => acc.erase q) fs ↔ (p ∈ fs ∧ p ∉ l) := by
  intro l
  induction l with
  | nil =>
    intro fs _ p
    simp
  | cons q rest ih =>
    intro fs hnd p
    simp only [List.foldl_cons]
    rw [ih _ (hnd.erase q)]
    constructor
    · rintro ⟨hpe, hnr⟩
      have hpf := List.mem_of_mem_erase hpe
      have hpq : p ≠ q := by
        intro he
        subst he
        exact hnd.not_mem_erase hpe
      refine ⟨hpf, ?_⟩
      simp [List.mem_cons, hpq, hnr]
    · rintro ⟨hpf, hnqr⟩
      have hpq : p ≠ q ∧ p ∉ rest := by simpa [not_or] using hnqr
      exact ⟨(List.mem_erase_of_ne hpq.1).2 hpf, hpq.2⟩

/-! ## Upload-loop lemmas -/

theorem upload_go_all_ok (ok : Nat → Bool) (errMsg : Nat → String)
    (base gid : String) :
    ∀ (paths : List String) (k : Nat) (acc : List String) (st : UploadState),
      st.fs.Nodup → paths.Nodup → (∀ p ∈ paths, p ∈ st.fs) →
      (∀ j, ok j = true) →
      upload_go ok errMsg base gid k paths acc st =
        (Except.ok (acc ++ paths.map (fun p => public_url base gid (basename p))),
         ⟨paths.foldl (fun acc2 q => acc2.erase q) st.fs,
          st.store ++ paths.map (fun p => dest_path gid (basename p))⟩) := by
  intro paths
  induction paths with
  | nil =>
    intro k acc st _ _ _ _
    simp [upload_go]
  | cons p rest ih =>
    intro k acc st h1 h2 h3 h4
    have hp : p ∈ st.fs := h3 p (List.mem_cons_self p rest)
    have hrest : ∀ q ∈ rest, q ∈ st.fs.erase p := by
      intro q hq
      have hqp : q ≠ p := by
        intro he
        subst he
        exact (List.nodup_cons.1 h2).1 hq
      exact (List.mem_erase_of_ne hqp).2 (h3 q (List.mem_cons_of_mem p hq))
    simp only [upload_go]
    rw [if_pos hp, if_pos (h4 k)]
    rw [ih (k + 1) (acc ++ [public_url base gid (basename p)])
        ⟨st.fs.erase p, st.store ++ [dest_path gid (basename p)]⟩
        (h1.erase p) h2.of_cons hrest h4]
    simp [List.map_cons, List.append_assoc, List.singleton_append,
      List.foldl_cons]

theorem upload_go_fail (ok : Nat → Bool) (errMsg : Nat → String)
    (base gid : String) :
    ∀ (paths : List String) (i k : Nat) (acc : List String) (st : UploadState),
      st.fs.Nodup → paths.Nodup → (∀ p ∈ paths, p ∈ st.fs) →
      i < paths.length →
      (∀ j, j < i → ok (k + j) = true) → ok (k + i) = false →
      upload_go ok errMsg base gid k paths acc st =
        (Except.error ⟨500, "Image upload failed: " ++ errMsg (k + i)⟩,
         ⟨(paths.take i).foldl (fun acc2 q => acc2.erase q) st.fs,
          st.store ++ (paths.take i).map (fun p => dest_path gid (basename p))⟩) := by
  intro paths
  induction paths with
  | nil =>
    intro i k acc st _ _ _ hi
    simp at hi
  | cons p rest ih =>
    intro i k acc st h1 h2 h3 hi hok hfail
    have hp : p ∈ st.fs := h3 p (List.mem_cons_self p rest)
    cases i with
    | zero =>
      have hk : ok k = false := by simpa using hfail
      simp only [upload_go]
      rw [if_pos hp, if_neg (by simp [hk])]
      simp
    | succ i2 =>
      have hk : ok k = true := by simpa using hok 0 (Nat.succ_pos i2)
      have hrest : ∀ q ∈ rest, q ∈ st.fs.erase p := by
        intro q hq
        have hqp : q ≠ p := by
          intro he
          subst he
          exact (List.nodup_cons.1 h2).1 hq
        exact (List.mem_erase_of_ne hqp).2 (h3 q (List.mem_cons_of_mem p hq))
      simp only [upload_go]
      rw [if_pos hp, if_pos hk]
      rw [ih i2 (k + 1) (acc ++ [public_url base gid (basename p)])
          ⟨st.fs.erase p, st.store ++ [dest_path gid (basename p)]⟩
          (h1.erase p) h2.of_cons hrest (by simpa using hi)
          (fun j hj => by
            have h := hok (j + 1) (by omega)
            have harith : k + (j + 1) = k + 1 + j := by omega
            rw [harith] at h
            exact h)
          (by
            have harith : k + (i2 + 1) = k + 1 + i2 := by omega
            rw [harith] at hfail
            exact hfail)]
      have harith2 : k + 1 + i2 = k + (i2 + 1) := by omega
      simp [harith2, List.map_cons, List.append_assoc, List.singleton_append,
        List.foldl_cons, List.take_succ_cons]

theorem upload_go_not_mem (ok : Nat → Bool) (errMsg : Nat → String)
    (base gid : String) :
    ∀ (paths : List String) (k : Nat) (acc : List String) (st : UploadState)
      {x : String}, x ∉ st.fs →
      x ∉ (upload_go ok errMsg base gid k paths acc st).2.fs := by
  intro paths
  induction paths with
  | nil =>
    intro k acc st x hx
    simpa [upload_go] using hx
  | cons p rest ih =>
    intro k acc st x hx
    by_cases hp : p ∈ st.fs
    · by_cases hk : ok k = true
      · simp only [upload_go]
        rw [if_pos hp, if_pos hk]
        apply ih
        intro hmem
        exact hx (List.mem_of_mem_erase hmem)
      · simp only [upload_go]
        rw [if_pos hp, if_neg (by simp [Bool.eq_false_iff.2 hk])]
        exact hx
    · simp only [upload_go]
      rw [if_neg hp]
      exact hx

/-! ## Conversion-step lemmas -/

theorem convert_pdf_fs_nodup (render : String → Except String Nat)
    (p : String) {fs : List String} (h : fs.Nodup) :
    ((convert_pdf_to_images render p fs).2).Nodup := by
  unfold convert_pdf_to_images
  cases render p with
  | error e => simpa using h
  | ok n => simpa using foldl_fsWrite_nodup _ _ h

theorem convert_pptx_fs_nodup (render : String → Except String Nat)
    (proc : ProcResult) (p : String) {fs : List String} (h : fs.Nodup) :
    ((convert_pptx_to_images render proc p fs).2).Nodup := by
  unfold convert_pptx_to_images
  by_cases h0 : proc.exitCode = 0
  · rw [if_pos h0]
    have h1 : (fsWrite fs (libreoffice_output p)).Nodup := fsWrite_nodup _ h
    have h2 := convert_pdf_fs_nodup render (pptx_pdf_path p) h1
    rcases hr : convert_pdf_to_images render (pptx_pdf_path p)
        (fsWrite fs (libreoffice_output p)) with ⟨res, fs2⟩
    rw [hr] at h2
    cases res with
    | error e => simpa using h2
    | ok l => simpa using h2
  · rw [if_neg h0]
    simpa using h

theorem image_path_ne_base (p : String) (i : Nat) :
    p ++ "_" ++ Nat.repr i ++ ".png" ≠ p := by
  intro he
  have h := congrArg (fun s => s.data.length) he
  simp only [String.data_append, List.length_append, List.length_cons,
    List.length_nil] at h
  omega

theorem image_path_inj {p : String} {i j : Nat}
    (h : p ++ "_" ++ Nat.repr i ++ ".png" = p ++ "_" ++ Nat.repr j ++ ".png") :
    i = j := by
  have hd := congrArg String.data h
  simp only [String.data_append, List.append_assoc] at hd
  have h1 := List.append_cancel_left hd
  have h2 := List.append_cancel_left h1
  have h3 := List.append_cancel_right h2
  exact repr_injective (string_data_inj h3)

theorem image_paths_nodup (p : String) (n : Nat) :
    ((List.range n).map (fun idx => p ++ "_" ++ Nat.repr idx ++ ".png")).Nodup := by
  refine List.Nodup.map ?_ (List.nodup_range n)
  intro a b hab
  exact image_path_inj hab

theorem img_suffix_no_slash (i : Nat) :
    ('/' : Char) ∉ ("_" ++ Nat.repr i ++ ".png").data := by
  simp only [String.data_append]
  intro h
  rcases List.mem_append.1 h with h | h
  · rcases List.mem_append.1 h with h | h
    · simp at h
    · exact repr_ne_slash i h
  · simp at h

theorem basename_image_path (p : String) (i : Nat) :
    basename (p ++ "_" ++ Nat.repr i ++ ".png")
      = basename p ++ "_" ++ Nat.repr i ++ ".png" := by
  rw [str_reassoc p "_" (Nat.repr i) ".png",
      str_reassoc (basename p) "_" (Nat.repr i) ".png"]
  exact basename_append p ("_" ++ Nat.repr i ++ ".png") (img_suffix_no_slash i)

theorem eq_of_noslash_append :
    ∀ (l1 l2 r1 r2 : List Char), '/' ∉ l1 → '/' ∉ l2 →
      l1 ++ '/' :: r1 = l2 ++ '/' :: r2 → l1 = l2 := by
  intro l1
  induction l1 with
  | nil =>
    intro l2 r1 r2 _ h2 he
    cases l2 with
    | nil => rfl
    | cons d u =>
      simp only [List.nil_append, List.cons_append] at he
      injection he with hc _
      subst hc
      exact absurd (List.mem_cons_self _ _) h2
  | cons c t ih =>
    intro l2 r1 r2 h1 h2 he
    cases l2 with
    | nil =>
      simp only [List.nil_append, List.cons_append] at he
      injection he with hc _
      subst hc
      exact absurd (List.mem_cons_self _ _) h1
    | cons d u =>
      simp only [List.cons_append] at he
      injection he with hc ht
      subst hc
      have h1t : '/' ∉ t := fun hm => h1 (List.mem_cons_of_mem _ hm)
      have h2u : '/' ∉ u := fun hm => h2 (List.mem_cons_of_mem _ hm)
      rw [ih u r1 r2 h1t h2u ht]

/-! ## Claim theorems -/

/-- C4: for every upload request whose declared media type is outside the
accepted set, `upload_file` raises `UnsupportedTypeError` (HTTP 400) before
any disk I/O occurs: the returned state equals the initial state, so no
temporary file is staged and no file is written. -/
theorem c4_unsupported_type_rejected_before_staging (B : Behaviour)
    (f : ReqFile) (st : UploadState) (h : f.content_type ∉ valid_types) :
    upload_file B f st = (Except.error ⟨400, "Unsupported file type"⟩, st) := by
  unfold upload_file
  rw [if_neg h]

/-- Witness for C4 at a plain-text upload. -/
theorem c4_unsupported_type_rejected_before_staging_witness :
    f_txt.content_type ∉ valid_types ∧
      upload_file B_pdf_ok f_txt st_empty =
        (Except.error ⟨400, "Unsupported file type"⟩, st_empty) :=
  ⟨by decide,
   c4_unsupported_type_rejected_before_staging B_pdf_ok f_txt st_empty
     (by decide)⟩

/-- C8: destination object paths of two conversions with distinct grouping
identifiers never collide: for any two distinct slash-free `folder_id`
draws, no destination path of one equals a destination path of the other
(the randomness of `uuid4` is modelled by quantifying over the drawn
identifiers; distinct draws are what independent uuid draws provide). -/
theorem c8_distinct_groups_no_collision (g1 g2 n1 n2 : String)
    (h1 : ('/' : Char) ∉ g1.data) (h2 : ('/' : Char) ∉ g2.data)
    (hne : g1 ≠ g2) : dest_path g1 n1 ≠ dest_path g2 n2 := by
  intro he
  apply hne
  apply string_data_inj
  have hd := congrArg String.data he
  simp only [dest_path, folder_path, String.data_append, List.append_assoc,
    List.singleton_append] at hd
  have hd2 := List.append_cancel_left hd
  exact eq_of_noslash_append _ _ _ _ h1 h2 hd2

/-- Witness for C8 at two concrete group identifiers. -/
theorem c8_distinct_groups_no_collision_witness :
    (('/' : Char) ∉ ("a" : String).data ∧ ('/' : Char) ∉ ("b" : String).data ∧
        ("a" : String) ≠ "b") ∧
      dest_path "a" "u1_deck.pdf_0.png" ≠ dest_path "b" "u1_deck.pdf_0.png" :=
  ⟨⟨by decide, by decide, by decide⟩,
   c8_distinct_groups_no_collision "a" "b" _ _ (by decide) (by decide)
     (by decide)⟩

/-- C6 (amended): on non-zero exit of the transcoding process, `normalize`
fails with a `ConversionError` whose detail is determined by the command
line and the exit status alone — the format of `str(CalledProcessError)`
when the process is run without capturing output. The process's stderr is
inherited by the server and is not part of the failure detail, because
`subprocess.run` is invoked without `capture_output`/`stderr=PIPE`. -/
theorem c6_amended_nonzero_exit_detail (render : String → Except String Nat)
    (proc : ProcResult) (pptx_path : String) (fs : List String)
    (h : proc.exitCode ≠ 0) :
    convert_pptx_to_images render proc pptx_path fs =
      (Except.error ⟨500, "PPTX conversion failed: " ++
        calledProcessErrorMsg (libreoffice_cmd pptx_path) proc.exitCode⟩,
       fs) := by
  unfold convert_pptx_to_images
  rw [if_neg h]

/-- Witness for the amended C6 at a concrete failing process. -/
theorem c6_amended_nonzero_exit_detail_witness :
    proc_boom.exitCode ≠ 0 ∧
      convert_pptx_to_images (fun _ => Except.ok 1) proc_boom
          "uploads/u1_deck.pptx" [] =
        (Except.error ⟨500, "PPTX conversion failed: " ++
          calledProcessErrorMsg (libreoffice_cmd "uploads/u1_deck.pptx")
            proc_boom.exitCode⟩, []) :=
  ⟨by decide,
   c6_amended_nonzero_exit_detail (fun _ => Except.ok 1) proc_boom
     "uploads/u1_deck.pptx" [] (by decide)⟩

set_option maxRecDepth 4000 in
/-- C6 counterexample: at a concrete run whose process exits 1 with stderr
`boom`, the raised detail is the `CalledProcessError` text, and the stderr
output is not contained in it — the claim that the failure detail captures
and includes the process's stderr is false on the code. -/
theorem c6_counterexample :
    (convert_pptx_to_images (fun _ => Except.ok 1) proc_boom
        "uploads/u1_deck.pptx" []).1 =
      Except.error ⟨500,
        "PPTX conversion failed: Command libreoffice --headless --convert-to pdf uploads/u1_deck.pptx --outdir uploads returned non-zero exit status 1."⟩
    ∧ ¬ (proc_boom.stderr.data <:+:
        ("PPTX conversion failed: Command libreoffice --headless --convert-to pdf uploads/u1_deck.pptx --outdir uploads returned non-zero exit status 1." : String).data) := by
  exact ⟨rfl, by decide⟩

/-- C7 (amended): `convert_pptx_to_images` derives its pdf path by replacing
every occurrence of the substring `.pptx` in the staged path with `.pdf`
(Python's `str.replace`), and on zero process exit delegates entirely to the
page rasterizer on exactly that derived path: when the renderer decodes `n`
pages there, the returned raster paths are the rasterizer's outputs for the
derived path. This coincides with replacing the file extension only when
`.pptx` occurs exactly once, as the final extension. -/
theorem c7_amended_delegates_on_replaced_path
    (render : String → Except String Nat) (proc : ProcResult)
    (pptx_path : String) (fs : List String) (n : Nat)
    (h0 : proc.exitCode = 0)
    (hr : render (pptx_pdf_path pptx_path) = Except.ok n) :
    (convert_pptx_to_images render proc pptx_path fs).1 =
      Except.ok ((List.range n).map
        (fun idx => pptx_pdf_path pptx_path ++ "_" ++ Nat.repr idx ++ ".png")) := by
  unfold convert_pptx_to_images convert_pdf_to_images
  rw [if_pos h0, hr]

/-- Witness for the amended C7 at a concrete slide deck. -/
theorem c7_amended_delegates_on_replaced_path_witness :
    (⟨0, ""⟩ : ProcResult).exitCode = 0 ∧
      ((fun _ => (Except.ok 1 : Except String Nat))
          (pptx_pdf_path "uploads/u1_deck.pptx") = Except.ok 1) ∧
      (convert_pptx_to_images (fun _ => Except.ok 1) ⟨0, ""⟩
          "uploads/u1_deck.pptx" []).1 =
        Except.ok ((List.range 1).map
          (fun idx => pptx_pdf_path "uploads/u1_deck.pptx" ++ "_" ++
            Nat.repr idx ++ ".png")) :=
  ⟨rfl, rfl,
   c7_amended_delegates_on_replaced_path (fun _ => Except.ok 1) ⟨0, ""⟩
     "uploads/u1_deck.pptx" [] 1 rfl rfl⟩

set_option maxRecDepth 4000 in
/-- C7 counterexample: for the staged path `uploads/u1_a.pptx.pptx`, the
source derives `uploads/u1_a.pdf.pdf` (every occurrence of `.pptx`
replaced), which differs from replacing the file extension
(`uploads/u1_a.pptx.pdf`), and the rasterizer is invoked on the former —
so the claim that the output path is derived by replacing the file
extension is false on the code. -/
theorem c7_counterexample :
    pptx_pdf_path "uploads/u1_a.pptx.pptx" = "uploads/u1_a.pdf.pdf"
    ∧ spec_extension_replaced "uploads/u1_a.pptx.pptx" = "uploads/u1_a.pptx.pdf"
    ∧ pptx_pdf_path "uploads/u1_a.pptx.pptx" ≠
        spec_extension_replaced "uploads/u1_a.pptx.pptx"
    ∧ (convert_pptx_to_images (fun _ => Except.ok 1) ⟨0, ""⟩
        "uploads/u1_a.pptx.pptx" []).1 =
        Except.ok ["uploads/u1_a.pdf.pdf_0.png"] := by
  exact ⟨by decide, by decide, by decide, rfl⟩

/-- C10: whenever the initial `active = False` update executes (the call does
not raise), it is the first attempted effect of `generate_report` — it
precedes the report-data fetch — and after the request completes, whether
with an error in any later step or successfully, the session row remains
deactivated; the deactivation is never rolled back. -/
theorem c10_deactivation_first_and_sticky (B : ReportBehaviour) (sid : Nat)
    (row : SessionRow) (h : B.updateActiveExc = none) :
    (generate_report B sid (some row)).2.2.head? = some (REvent.deactivate sid)
    ∧ ∃ row2, (generate_report B sid (some row)).2.1 = some row2 ∧
        row2.active = false := by
  simp only [generate_report, h]
  cases B.rpcExc with
  | some e => exact ⟨rfl, _, rfl, rfl⟩
  | none =>
    cases B.rpcRows with
    | zero => exact ⟨rfl, _, rfl, rfl⟩
    | succ m =>
      cases B.uploadExc with
      | some e => exact ⟨rfl, _, rfl, rfl⟩
      | none =>
        cases B.urlExc with
        | some e => exact ⟨rfl, _, rfl, rfl⟩
        | none =>
          cases B.updateUrlExc with
          | some e => exact ⟨rfl, _, rfl, rfl⟩
          | none => exact ⟨rfl, _, rfl, rfl⟩

/-- Witness for C10 at an all-successful report run. -/
theorem c10_deactivation_first_and_sticky_witness :
    RB_ok.updateActiveExc = none ∧
      ((generate_report RB_ok 7 (some row_active)).2.2.head? =
          some (REvent.deactivate 7)
        ∧ ∃ row2, (generate_report RB_ok 7 (some row_active)).2.1 = some row2 ∧
            row2.active = false) :=
  ⟨rfl, c10_deactivation_first_and_sticky RB_ok 7 row_active rfl⟩

/-- C1 counterexample: with one raster page on disk and a store that rejects
the upload, `upload_images_to_supabase` raises — and the raster page file is
still on disk afterwards, so the claim that no raster page survives past a
failed upload attempt is false on the code (the `os.remove` is only reached
after a successful upload, and the raise aborts the loop). -/
theorem c1_counterexample :
    (upload_images_to_supabase (fun _ => false) (fun _ => "storage error")
        "https://sb.example" ["uploads/u1_deck.pdf_0.png"] "g1"
        ⟨["uploads/u1_deck.pdf_0.png"], []⟩).1 =
      Except.error ⟨500, "Image upload failed: storage error"⟩
    ∧ "uploads/u1_deck.pdf_0.png" ∈
        (upload_images_to_supabase (fun _ => false) (fun _ => "storage error")
          "https://sb.example" ["uploads/u1_deck.pdf_0.png"] "g1"
          ⟨["uploads/u1_deck.pdf_0.png"], []⟩).2.fs :=
  ⟨rfl, by decide⟩

/-- C1 (amended): each raster page's local file is deleted immediately after
its own successful upload; in particular, when every upload succeeds no
raster page produced by the conversion remains on disk after
`upload_images_to_supabase` returns. When an upload raises, the failing
page and all later pages survive on disk (the counterexample above and the
C9 frame theorem show this). -/
theorem c1_amended_success_cleanup (ok : Nat → Bool) (errMsg : Nat → String)
    (base gid : String) (image_paths : List String) (st : UploadState)
    (h1 : st.fs.Nodup) (h2 : image_paths.Nodup)
    (h3 : ∀ p ∈ image_paths, p ∈ st.fs) (h4 : ∀ j, ok j = true) :
    ∀ p ∈ image_paths,
      p ∉ (upload_images_to_supabase ok errMsg base image_paths gid st).2.fs := by
  intro p hp
  unfold upload_images_to_supabase
  rw [upload_go_all_ok ok errMsg base gid image_paths 0 [] st h1 h2 h3 h4]
  intro hmem
  exact ((mem_foldl_erase_iff image_paths st.fs h1 p).1 hmem).2 hp

/-- Witness for the amended C1 at two concrete pages, all uploads accepted. -/
theorem c1_amended_success_cleanup_witness :
    (st_two.fs.Nodup ∧ two_pages.Nodup ∧ ∀ p ∈ two_pages, p ∈ st_two.fs) ∧
      ∀ p ∈ two_pages,
        p ∉ (upload_images_to_supabase (fun _ => true) (fun _ => "")
            "https://sb.example" two_pages "g1" st_two).2.fs :=
  ⟨⟨by decide, by decide, by decide⟩,
   c1_amended_success_cleanup (fun _ => true) (fun _ => "") "https://sb.example"
     "g1" two_pages st_two (by decide) (by decide) (by decide) (fun _ => rfl)⟩

/-- C9: if the store accepts the first `i` uploads and rejects the `i`-th
(0-based) attempt, `upload_images_to_supabase` raises the upload error, the
store afterwards holds exactly the previous objects plus the destination
objects of pages `0..i-1` in order, and a path is on disk afterwards exactly
when it was on disk before and is not one of the first `i` pages — so pages
`0..i-1` are deleted locally while pages `i..N-1`, including the one whose
upload failed, still exist unchanged. -/
theorem c9_partial_failure_frame (ok : Nat → Bool) (errMsg : Nat → String)
    (base gid : String) (image_paths : List String) (i : Nat)
    (st : UploadState)
    (h1 : st.fs.Nodup) (h2 : image_paths.Nodup)
    (h3 : ∀ p ∈ image_paths, p ∈ st.fs)
    (hi : i < image_paths.length)
    (hok : ∀ j, j < i → ok j = true) (hfail : ok i = false) :
    (upload_images_to_supabase ok errMsg base image_paths gid st).1 =
      Except.error ⟨500, "Image upload failed: " ++ errMsg i⟩
    ∧ (upload_images_to_supabase ok errMsg base image_paths gid st).2.store =
        st.store ++
          (image_paths.take i).map (fun p => dest_path gid (basename p))
    ∧ ∀ p,
        p ∈ (upload_images_to_supabase ok errMsg base image_paths gid st).2.fs
          ↔ (p ∈ st.fs ∧ p ∉ image_paths.take i) := by
  unfold upload_images_to_supabase
  rw [upload_go_fail ok errMsg base gid image_paths i 0 [] st h1 h2 h3 hi
      (fun j hj => by simpa using hok j hj) (by simpa using hfail)]
  refine ⟨by simp, rfl, ?_⟩
  intro p
  exact mem_foldl_erase_iff _ _ h1 p

/-- Witness for C9: two pages, the second upload rejected. -/
theorem c9_partial_failure_frame_witness :
    ((∀ j, j < 1 → ok_first j = true) ∧ ok_first 1 = false ∧
        1 < two_pages.length) ∧
      ((upload_images_to_supabase ok_first (fun _ => "storage error")
          "https://sb.example" two_pages "g1" st_two).1 =
        Except.error ⟨500, "Image upload failed: " ++
          (fun _ => "storage error") 1⟩
      ∧ (upload_images_to_supabase ok_first (fun _ => "storage error")
          "https://sb.example" two_pages "g1" st_two).2.store =
          st_two.store ++
            (two_pages.take 1).map (fun p => dest_path "g1" (basename p))
      ∧ ∀ p,
          p ∈ (upload_images_to_supabase ok_first (fun _ => "storage error")
            "https://sb.example" two_pages "g1" st_two).2.fs
            ↔ (p ∈ st_two.fs ∧ p ∉ two_pages.take 1)) :=
  ⟨⟨by decide, rfl, by decide⟩,
   c9_partial_failure_frame ok_first (fun _ => "storage error")
     "https://sb.example" "g1" two_pages 1 st_two (by decide) (by decide)
     (by decide) (by decide) (by decide) rfl⟩

/-- C3: when the external renderer raises on every path (a document it
cannot parse or decode), `upload_file` fails with a single aggregated
`ConversionError` (one HTTP 500 error) and publishes nothing: the store is
unchanged, so no partial upload of a subset of pages occurs. This covers
both accepted media types; for a slide deck the transcoding process is
assumed to have exited 0, so the failure comes from the rendering step. -/
theorem c3_render_failure_publishes_nothing (B : Behaviour) (f : ReqFile)
    (st : UploadState) (emsg : String)
    (h1 : f.content_type ∈ valid_types)
    (h2 : ∀ p, B.render p = Except.error emsg)
    (h3 : B.proc.exitCode = 0) :
    (∃ d : HTTPError, (upload_file B f st).1 = Except.error d ∧ d.code = 500)
    ∧ (upload_file B f st).2.store = st.store := by
  by_cases hpdf : f.content_type = "application/pdf"
  · simp only [upload_file, if_pos h1, hpdf, if_true, save_temp_file,
      convert_pdf_to_images, h2]
    exact ⟨⟨_, rfl, rfl⟩, rfl⟩
  · simp only [upload_file, if_pos h1, hpdf, if_false, save_temp_file,
      convert_pptx_to_images, h3, if_true, convert_pdf_to_images, h2]
    exact ⟨⟨_, rfl, rfl⟩, trivial⟩

/-- Witness for C3 at a pdf whose renderer raises. -/
theorem c3_render_failure_publishes_nothing_witness :
    (f_pdf.content_type ∈ valid_types ∧
        (∀ p, B_bad_pdf.render p = Except.error "corrupt file") ∧
        B_bad_pdf.proc.exitCode = 0) ∧
      ((∃ d : HTTPError, (upload_file B_bad_pdf f_pdf st_empty).1 =
          Except.error d ∧ d.code = 500)
        ∧ (upload_file B_bad_pdf f_pdf st_empty).2.store = st_empty.store) :=
  ⟨⟨by decide, fun _ => rfl, rfl⟩,
   c3_render_failure_publishes_nothing B_bad_pdf f_pdf st_empty "corrupt file"
     (by decide) (fun _ => rfl) rfl⟩

/-- C5: for every staged upload request with an accepted media type, the
staged temporary file no longer exists after `upload_file` returns or
fails: the `finally` around the conversion step removes it regardless of
the conversion's outcome, and the upload phase never recreates it. -/
theorem c5_staged_file_deleted (B : Behaviour) (f : ReqFile) (st : UploadState)
    (h1 : f.content_type ∈ valid_types) (h2 : st.fs.Nodup) :
    staged_path B.uuid_file f.filename ∉ (upload_file B f st).2.fs := by
  unfold upload_file
  rw [if_pos h1]
  simp only [save_temp_file]
  by_cases hpdf : f.content_type = "application/pdf"
  · rw [if_pos hpdf]
    have hnd : ((convert_pdf_to_images B.render
        (staged_path B.uuid_file f.filename)
        (fsWrite st.fs (staged_path B.uuid_file f.filename))).2).Nodup :=
      convert_pdf_fs_nodup _ _ (fsWrite_nodup _ h2)
    rcases hc : convert_pdf_to_images B.render
        (staged_path B.uuid_file f.filename)
        (fsWrite st.fs (staged_path B.uuid_file f.filename)) with ⟨res, fs2⟩
    rw [hc] at hnd
    cases res with
    | error e => exact hnd.not_mem_erase
    | ok image_paths =>
      unfold upload_images_to_supabase
      exact upload_go_not_mem B.ok B.errMsg B.base B.uuid_folder image_paths 0
        [] _ hnd.not_mem_erase
  · rw [if_neg hpdf]
    have hnd : ((convert_pptx_to_images B.render B.proc
        (staged_path B.uuid_file f.filename)
        (fsWrite st.fs (staged_path B.uuid_file f.filename))).2).Nodup :=
      convert_pptx_fs_nodup _ _ _ (fsWrite_nodup _ h2)
    rcases hc : convert_pptx_to_images B.render B.proc
        (staged_path B.uuid_file f.filename)
        (fsWrite st.fs (staged_path B.uuid_file f.filename)) with ⟨res, fs2⟩
    rw [hc] at hnd
    cases res with
    | error e => exact hnd.not_mem_erase
    | ok image_paths =>
      unfold upload_images_to_supabase
      exact upload_go_not_mem B.ok B.errMsg B.base B.uuid_folder image_paths 0
        [] _ hnd.not_mem_erase

/-- Witness for C5 at an all-successful pdf upload. -/
theorem c5_staged_file_deleted_witness :
    (f_pdf.content_type ∈ valid_types ∧ st_empty.fs.Nodup) ∧
      staged_path B_pdf_ok.uuid_file f_pdf.filename ∉
        (upload_file B_pdf_ok f_pdf st_empty).2.fs :=
  ⟨⟨by decide, by decide⟩,
   c5_staged_file_deleted B_pdf_ok f_pdf st_empty (by decide) (by decide)⟩

/-- C2: for a pdf upload whose renderer decodes `P` pages and whose store
accepts every upload, `upload_file` returns exactly `P` public URLs in page
order; the URL of 0-based page `idx` is
`public_url base folder_id (<staged basename> ++ "_" ++ idx ++ ".png")`,
i.e. `<SUPABASE_URL>/storage/v1/object/public/presentations/images/
<folder_id>/<staged basename>_<idx>.png`. -/
theorem c2_pdf_pipeline_ordered_urls (B : Behaviour) (f : ReqFile)
    (st : UploadState) (P : Nat)
    (h1 : f.content_type = "application/pdf")
    (h2 : B.render (staged_path B.uuid_file f.filename) = Except.ok P)
    (h3 : ∀ j, B.ok j = true)
    (h4 : st.fs.Nodup) :
    (upload_file B f st).1 =
      Except.ok ((List.range P).map (fun idx =>
        public_url B.base B.uuid_folder
          (basename (staged_path B.uuid_file f.filename) ++ "_" ++
            Nat.repr idx ++ ".png"))) := by
  set q := staged_path B.uuid_file f.filename with hq
  have hmem : f.content_type ∈ valid_types := by
    rw [h1]
    unfold valid_types
    exact List.mem_cons_self _ _
  unfold upload_file
  rw [if_pos hmem]
  simp only [save_temp_file]
  rw [if_pos h1]
  have hconv : convert_pdf_to_images B.render q (fsWrite st.fs q)
      = (Except.ok
          ((List.range P).map (fun idx => q ++ "_" ++ Nat.repr idx ++ ".png")),
         ((List.range P).map
            (fun idx => q ++ "_" ++ Nat.repr idx ++ ".png")).foldl fsWrite
           (fsWrite st.fs q)) := by
    unfold convert_pdf_to_images
    rw [h2]
  rw [hconv]
  show (upload_images_to_supabase B.ok B.errMsg B.base
      ((List.range P).map (fun idx => q ++ "_" ++ Nat.repr idx ++ ".png"))
      B.uuid_folder
      ⟨(((List.range P).map
          (fun idx => q ++ "_" ++ Nat.repr idx ++ ".png")).foldl fsWrite
            (fsWrite st.fs q)).erase q, st.store⟩).1 = _
  have hnd2 : ((((List.range P).map
      (fun idx => q ++ "_" ++ Nat.repr idx ++ ".png")).foldl fsWrite
        (fsWrite st.fs q)).erase q).Nodup :=
    (foldl_fsWrite_nodup _ _ (fsWrite_nodup _ h4)).erase q
  have himn : ((List.range P).map
      (fun idx => q ++ "_" ++ Nat.repr idx ++ ".png")).Nodup :=
    image_paths_nodup q P
  have hsub : ∀ p ∈ (List.range P).map
      (fun idx => q ++ "_" ++ Nat.repr idx ++ ".png"),
      p ∈ (((List.range P).map
        (fun idx => q ++ "_" ++ Nat.repr idx ++ ".png")).foldl fsWrite
          (fsWrite st.fs q)).erase q := by
    intro p hp
    have hp2 : p ∈ ((List.range P).map
        (fun idx => q ++ "_" ++ Nat.repr idx ++ ".png")).foldl fsWrite
          (fsWrite st.fs q) :=
      mem_foldl_fsWrite_self _ _ hp
    have hpne : p ≠ q := by
      rcases List.mem_map.1 hp with ⟨idx, _, hidx⟩
      rw [← hidx]
      exact image_path_ne_base q idx
    exact (List.mem_erase_of_ne hpne).2 hp2
  unfold upload_images_to_supabase
  rw [upload_go_all_ok B.ok B.errMsg B.base B.uuid_folder
      ((List.range P).map (fun idx => q ++ "_" ++ Nat.repr idx ++ ".png")) 0 []
      ⟨(((List.range P).map
          (fun idx => q ++ "_" ++ Nat.repr idx ++ ".png")).foldl fsWrite
            (fsWrite st.fs q)).erase q, st.store⟩ hnd2 himn hsub h3]
  simp only [List.nil_append, List.map_map]
  congr 1
  have hfun : ((fun p => public_url B.base B.uuid_folder (basename p)) ∘
      (fun idx => q ++ "_" ++ Nat.repr idx ++ ".png"))
      = fun idx => public_url B.base B.uuid_folder
          (basename q ++ "_" ++ Nat.repr idx ++ ".png") := by
    funext idx
    simp only [Function.comp]
    rw [basename_image_path]
  rw [hfun]

/-- Witness for C2 at a concrete two-page pdf. -/
theorem c2_pdf_pipeline_ordered_urls_witness :
    (f_pdf.content_type = "application/pdf" ∧
        B_pdf_ok.render (staged_path B_pdf_ok.uuid_file f_pdf.filename) =
          Except.ok 2 ∧
        st_empty.fs.Nodup) ∧
      (upload_file B_pdf_ok f_pdf st_empty).1 =
        Except.ok ((List.range 2).map (fun idx =>
          public_url B_pdf_ok.base B_pdf_ok.uuid_folder
            (basename (staged_path B_pdf_ok.uuid_file f_pdf.filename) ++ "_" ++
              Nat.repr idx ++ ".png"))) :=
  ⟨⟨rfl, rfl, by decide⟩,
   c2_pdf_pipeline_ordered_urls B_pdf_ok f_pdf st_empty 2 rfl rfl
     (fun _ => rfl) (by decide)⟩
